import Mathlib

/-!
Verification of the delivery-email extraction app (src/streamlit_app.py)
against its natural-language specification.

The Python source is shallowly embedded below:
* JSON values and parsed objects become `Value` and `Obj` (association lists,
  first binding wins, as for a Python dict).
* `display_delivery_details` (src lines 95-152) becomes an `Except`-valued
  function: an uncaught Python exception (KeyError on a missing key,
  TypeError on a non-numeric price comparison) is an `Except.error`.
* The SQL store becomes an explicit `DBState`; `insert_into_db`
  (lines 44-70), `get_delivery_history` (lines 72-93) and
  `create_table_if_not_exists` (lines 21-42) are state transformers that
  also emit a trace of connection open/close events, so that resource
  release on each exit path can be stated.  Connection/SQL failures are
  modelled by the `reachable` / `execFails` flags of the state.
* The statistics block of `main` (lines 263-271) becomes `statsBlock`;
  the post-parse pipeline of `main` (lines 246-255) becomes `processParsed`.
-/

namespace DeliveryApp

/-- A JSON value as far as this app distinguishes them: strings, numbers
(modelled as rationals) and null. -/
inductive Value where
  | str (s : String)
  | num (q : ℚ)
  | null
  deriving DecidableEq, Repr

/-- A parsed JSON object (Python dict): association list, first binding wins. -/
def Obj := List (String × Value)

/-- Python `data[k]` lookup, as an `Option`: `none` models a KeyError. -/
def getKey : Obj → String → Option Value
  | [], _ => none
  | (k, v) :: rest, key => if k = key then some v else getKey rest key

/-- Python `data.get(k, d)`. -/
def getD (data : Obj) (key : String) (d : Value) : Value :=
  (getKey data key).getD d

/-- Python truthiness of an optional value (`data.get(k)` with no default
yields None, which is falsy; "" , 0 and null are falsy). -/
def truthy : Option Value → Bool
  | none => false
  | some (Value.str s) => !(s = "")
  | some (Value.num q) => !(q = 0)
  | some Value.null => false

/-- A Python exception escaping a statement of the source. -/
inductive PyError where
  | keyError (k : String)
  | typeError
  | dbError (msg : String)
  deriving DecidableEq, Repr

/-- Modelled from the spec: `format_delivery_date` is called at
src/streamlit_app.py:135 but not defined under src/.  Per §4.3 the
delivery date is passed through as-is ("never silently discard
user-visible data"), so the formatter is modelled as the identity on the
value it is given. -/
def format_delivery_date (v : Value) : Value := v

/-- What `display_delivery_details` (lines 95-152) renders: the delivery
status badge, the optional price headline, the six-row details table and
the tracking hint. -/
structure DisplayOut where
  statusConfirmed : Bool
  priceShown : Option ℚ
  order_id : Value
  description : Value
  store : Value
  delivery_date : Value
  carrier : Value
  tracking_number : Value
  trackingShown : Bool
  deriving DecidableEq, Repr

/-- `display_delivery_details` (lines 95-152).  Line 103 reads
`data["delivery"]` unconditionally; line 119 reads `data["price_num"]`
unconditionally and compares it with 0 (a TypeError unless numeric); the
remaining six fields are read with `.get(key, "")` (lines 132-137). -/
def display_delivery_details (data : Obj) : Except PyError DisplayOut :=
  match getKey data "delivery" with
  | none => Except.error (PyError.keyError "delivery")
  | some dv =>
    match getKey data "price_num" with
    | none => Except.error (PyError.keyError "price_num")
    | some pv =>
      match pv with
      | Value.num q =>
        Except.ok
          { statusConfirmed := decide (dv = Value.str "yes")
            priceShown := if 0 < q then some q else none
            order_id := getD data "order_id" (Value.str "")
            description := getD data "description" (Value.str "")
            store := getD data "store" (Value.str "")
            delivery_date := format_delivery_date (getD data "delivery_date" (Value.str ""))
            carrier := getD data "carrier" (Value.str "")
            tracking_number := getD data "tracking_number" (Value.str "")
            trackingShown := truthy (getKey data "tracking_number")
              && truthy (getKey data "carrier") }
      | _ => Except.error PyError.typeError

/-- One row of the `delivery_details` table (lines 28-39): the eight
inserted values plus the IDENTITY surrogate key and the GETDATE()
timestamp. -/
structure Row where
  id : Nat
  delivery : Value
  price_num : Value
  description : Value
  order_id : Value
  delivery_date : Value
  store : Value
  tracking_number : Value
  carrier : Value
  created_at : Nat
  deriving DecidableEq, Repr

/-- The SQL Server state.  `reachable` is false when `get_connection`
raises; `execFails` is true when the cursor/read operation raises.
`nextId` is the IDENTITY(1,1) counter (starts at 1, never decremented);
`now` is the GETDATE() clock. -/
structure DBState where
  reachable : Bool
  execFails : Bool
  tableExists : Bool
  nextId : Nat
  rows : List Row
  now : Nat
  deriving DecidableEq, Repr

/-- Connection lifecycle events, for resource-release statements. -/
inductive Event where
  | openConn
  | closeConn
  deriving DecidableEq, Repr

/-- The column order of the INSERT statement (lines 52, 55-62); Python
evaluates the `data[...]` lookups in this order, so the first missing key
is the one named by the KeyError. -/
def fieldKeys : List String :=
  ["delivery", "price_num", "description", "order_id", "delivery_date",
   "store", "tracking_number", "carrier"]

/-- The first key of the INSERT tuple absent from `data`, if any
(the key whose lookup raises the KeyError in lines 55-62). -/
def firstMissingKey (data : Obj) : Option String :=
  fieldKeys.find? (fun k => (getKey data k).isNone)

/-- All eight INSERT keys are present. -/
def allKeys (data : Obj) : Bool :=
  (firstMissingKey data).isNone

/-- The row the INSERT of lines 50-63 appends: the eight values verbatim,
the IDENTITY id and the GETDATE() timestamp. -/
def mkRowFromData (db : DBState) (data : Obj) : Row :=
  { id := db.nextId
    delivery := (getKey data "delivery").getD Value.null
    price_num := (getKey data "price_num").getD Value.null
    description := (getKey data "description").getD Value.null
    order_id := (getKey data "order_id").getD Value.null
    delivery_date := (getKey data "delivery_date").getD Value.null
    store := (getKey data "store").getD Value.null
    tracking_number := (getKey data "tracking_number").getD Value.null
    carrier := (getKey data "carrier").getD Value.null
    created_at := db.now }

/-- Result of `insert_into_db`: the returned Bool, the store state after
the call, the `st.error` messages shown, and the connection trace. -/
structure InsertResult where
  ok : Bool
  db : DBState
  errMsgs : List String
  trace : List Event
  deriving Repr

/-- `insert_into_db` (lines 44-70).  The whole body sits in
`try/except Exception`, so every exception - connection failure, KeyError
from a missing field, SQL failure - is caught, reported as a single
"Database error: ..." message (line 69) and turned into `False`
(line 70).  `conn.close()` (line 66) runs only on the success path: when
the execute raises, the except branch returns without closing. -/
def insert_into_db (db : DBState) (data : Obj) : InsertResult :=
  if db.reachable = false then
    { ok := false, db := db
      errMsgs := ["Database error: " ++ "connection failed"], trace := [] }
  else
    match firstMissingKey data with
    | some k =>
      { ok := false, db := db
        errMsgs := ["Database error: " ++ k], trace := [Event.openConn] }
    | none =>
      if db.execFails = true then
        { ok := false, db := db
          errMsgs := ["Database error: " ++ "execute failed"]
          trace := [Event.openConn] }
      else
        { ok := true
          db := { db with rows := db.rows ++ [mkRowFromData db data]
                          nextId := db.nextId + 1
                          now := db.now + 1 }
          errMsgs := []
          trace := [Event.openConn, Event.closeConn] }

/-- Insertion step of a descending (by `created_at`) insertion sort. -/
def insertByCreated (r : Row) : List Row → List Row
  | [] => [r]
  | x :: xs =>
    if r.created_at ≤ x.created_at then x :: insertByCreated r xs
    else r :: x :: xs

/-- `ORDER BY created_at DESC` (line 88): the rows sorted by descending
timestamp. -/
def sortByCreatedDesc : List Row → List Row
  | [] => []
  | r :: rs => insertByCreated r (sortByCreatedDesc rs)

/-- Result of `get_delivery_history`: either the DataFrame rows or the
uncaught exception, plus the connection trace. -/
structure QueryResult where
  res : Except PyError (List Row)
  trace : List Event
  deriving Repr

/-- `get_delivery_history` (lines 72-93).  There is no exception handler:
a connection failure (line 74) or read failure (line 91) propagates to
the caller, and on the read-failure path `conn.close()` (line 92) never
runs. -/
def get_delivery_history (db : DBState) : QueryResult :=
  if db.reachable = false then
    { res := Except.error (PyError.dbError "connection failed"), trace := [] }
  else if db.execFails = true then
    { res := Except.error (PyError.dbError "read failed")
      trace := [Event.openConn] }
  else
    { res := Except.ok (sortByCreatedDesc db.rows)
      trace := [Event.openConn, Event.closeConn] }

/-- `create_table_if_not_exists` (lines 21-42): IF NOT EXISTS ... CREATE
TABLE, no exception handler, `conn.close()` only after a successful
commit. -/
def create_table_if_not_exists (db : DBState) :
    (Except PyError DBState) × List Event :=
  if db.reachable = false then
    (Except.error (PyError.dbError "connection failed"), [])
  else if db.execFails = true then
    (Except.error (PyError.dbError "execute failed"), [Event.openConn])
  else
    (Except.ok { db with tableExists := true }, [Event.openConn, Event.closeConn])

/-- A reachable, healthy, empty store right after table creation:
IDENTITY(1,1) starts at 1. -/
def emptyDb : DBState :=
  { reachable := true, execFails := false, tableExists := true
    nextId := 1, rows := [], now := 0 }

/-- The statistics shown by `main` (lines 269-271). -/
structure StatsOut where
  total : Nat
  confirmed : Nat
  confirmed_pct : ℚ
  total_spent : ℚ
  deriving DecidableEq, Repr

/-- The numeric reading of a stored price cell, as the pandas FLOAT column
sum sees it. -/
def Value.toQ : Value → ℚ
  | Value.num q => q
  | _ => 0

/-- The statistics block of `main` (lines 263-271): guarded by
`if not df.empty` - on an empty history nothing is computed or shown
(`none`); otherwise total (line 265), confirmed (line 266), total spent
(line 267) and the percentage inside the metric string (line 270). -/
def statsBlock (rows : List Row) : Option StatsOut :=
  if rows.isEmpty then none
  else
    let total := rows.length
    let confirmed := (rows.filter (fun r => decide (r.delivery = Value.str "yes"))).length
    let total_spent := (rows.map (fun r => Value.toQ r.price_num)).sum
    some { total := total, confirmed := confirmed
           confirmed_pct := (confirmed : ℚ) / (total : ℚ) * 100
           total_spent := total_spent }

/-- Observable outcome of the post-parse part of `main`
(lines 246-255). -/
structure FlowOut where
  displayed : Option DisplayOut
  insertAttempted : Bool
  insertOk : Bool
  successMsg : Bool
  dbErrors : List String
  db : DBState
  raised : Option PyError
  deriving Repr

/-- `main` lines 246-255, from `parsed_json` on: display first (line 248),
then insert (line 250), success banner only when insert returned True
(line 251).  The surrounding `try` catches only `json.JSONDecodeError`
(line 253), so an exception from `display_delivery_details` (e.g. a
KeyError) propagates (`raised`) and the insert is never attempted. -/
def processParsed (db : DBState) (parsed : Obj) : FlowOut :=
  match display_delivery_details parsed with
  | Except.error e =>
    { displayed := none, insertAttempted := false, insertOk := false
      successMsg := false, dbErrors := [], db := db, raised := some e }
  | Except.ok v =>
    let r := insert_into_db db parsed
    { displayed := some v, insertAttempted := true, insertOk := r.ok
      successMsg := r.ok, dbErrors := r.errMsgs, db := r.db, raised := none }

/-- A sequence of `insert_into_db` calls, threading the store state. -/
def insertSeq (db : DBState) : List Obj → DBState
  | [] => db
  | d :: ds => insertSeq (insert_into_db db d).db ds

/-- Python str.strip() whitespace. -/
def pyWs (c : Char) : Bool :=
  c = ' ' || c = '\t' || c = '\n' || c = '\r' ||
  c = Char.ofNat 11 || c = Char.ofNat 12

/-- Leading/trailing whitespace removed (Python `text.strip()`). -/
def trimChars (l : List Char) : List Char :=
  ((l.dropWhile pyWs).reverse.dropWhile pyWs).reverse

/-- Does `pat` match at the head of the text? -/
def headMatches : List Char → List Char → Bool
  | [], _ => true
  | _ :: _, [] => false
  | p :: ps, c :: cs => p = c && headMatches ps cs

/-- Remove every occurrence of a (nonempty) pattern, left to right,
with explicit fuel (one unit per character consumed, so `l.length` fuel
always suffices). -/
def removeAllAux (pat : List Char) : Nat → List Char → List Char
  | 0, l => l
  | n + 1, l =>
    match l with
    | [] => []
    | c :: cs =>
      if pat.length ≠ 0 ∧ headMatches pat (c :: cs) = true then
        removeAllAux pat n (List.drop (pat.length - 1) cs)
      else
        c :: removeAllAux pat n cs

/-- Remove every occurrence of a (nonempty) pattern, left to right. -/
def removeAll (pat : List Char) (l : List Char) : List Char :=
  removeAllAux pat l.length l

/-- The backtick character, code point 96. -/
def btick : Char := Char.ofNat 96

/-- The markdown code-fence closer: three backticks. -/
def fence : List Char := [btick, btick, btick]

/-- The markdown code-fence opener for a json block. -/
def fenceJson : List Char := fence ++ String.toList "json"

/-- Index of the first occurrence of a character. -/
def firstIdx (c : Char) : List Char → Option Nat
  | [] => none
  | x :: xs =>
    if x = c then some 0 else (firstIdx c xs).map (· + 1)

/-- Index of the last occurrence of a character. -/
def lastIdx (c : Char) : List Char → Option Nat
  | [] => none
  | x :: xs =>
    match lastIdx c xs with
    | some j => some (j + 1)
    | none => if x = c then some 0 else none

/-- The trimmed input with both code-fence markers stripped out
(spec §4.2 steps 1-2). -/
def cleaned (s : List Char) : List Char :=
  removeAll fence (removeAll fenceJson (trimChars s))

/-- Modelled from the spec: `extract_valid_json` is called at
src/streamlit_app.py:244 but not defined under src/.  Per §4.2:
(1) trim whitespace; (2) strip the literal fence markers (the
triple-backtick-json opener, then the bare triple-backtick) anywhere in
the string; (3) return the span from the first brace-open to the last
brace-close (greedy, dot-matches-newline) when such a span exists;
(4) otherwise return the trimmed text unchanged. -/
def extract_valid_json (s : List Char) : List Char :=
  match firstIdx '{' (cleaned s), lastIdx '}' (cleaned s) with
  | some i, some j =>
    if i < j then ((cleaned s).drop i).take (j - i + 1) else trimChars s
  | _, _ => trimChars s

/-! ### Helper lemmas about the store operations -/

theorem insert_ok_iff (db : DBState) (data : Obj) :
    (insert_into_db db data).ok = true ↔
      db.reachable = true ∧ db.execFails = false ∧ firstMissingKey data = none := by
  unfold insert_into_db
  cases hr : db.reachable <;> cases he : db.execFails <;>
    cases hm : firstMissingKey data <;> simp [hr, he, hm]

theorem insert_fail_shape (db : DBState) (data : Obj)
    (h : (insert_into_db db data).ok = false) :
    (insert_into_db db data).db = db ∧
      ∃ s, (insert_into_db db data).errMsgs = ["Database error: " ++ s] := by
  unfold insert_into_db at h ⊢
  cases hr : db.reachable <;> cases he : db.execFails <;>
    cases hm : firstMissingKey data <;> simp [hr, he, hm] at h ⊢
  all_goals
    first
    | exact ⟨"connection failed", rfl⟩
    | exact ⟨"execute failed", rfl⟩

theorem insert_success_shape (db : DBState) (data : Obj)
    (h : (insert_into_db db data).ok = true) :
    (insert_into_db db data).db.rows = db.rows ++ [mkRowFromData db data] ∧
      (insert_into_db db data).db.nextId = db.nextId + 1 ∧
      (insert_into_db db data).db.now = db.now + 1 ∧
      (insert_into_db db data).db.reachable = db.reachable ∧
      (insert_into_db db data).db.execFails = db.execFails ∧
      (insert_into_db db data).errMsgs = [] := by
  unfold insert_into_db at h ⊢
  cases hr : db.reachable <;> cases he : db.execFails <;>
    cases hm : firstMissingKey data <;> simp [hr, he, hm] at h ⊢

/-! ### Claim theorems -/

/-- C9: `insert_into_db` is total over arbitrary dictionary inputs: it
returns True exactly when the store is reachable, the INSERT succeeds and
all eight keys are present; on any failure - connection error, KeyError
from a missing field such as "delivery", or SQL error - it returns False,
leaves the store unchanged and reports a single "Database error: ..."
message; on success it commits exactly the one new row and reports
nothing. -/
theorem C9_insert_total_and_reports (db : DBState) (data : Obj) :
    ((insert_into_db db data).ok = true ↔
      db.reachable = true ∧ db.execFails = false ∧ firstMissingKey data = none) ∧
    ((insert_into_db db data).ok = false →
      (insert_into_db db data).db = db ∧
      ∃ s, (insert_into_db db data).errMsgs = ["Database error: " ++ s]) ∧
    ((insert_into_db db data).ok = true →
      (insert_into_db db data).db.rows = db.rows ++ [mkRowFromData db data] ∧
      (insert_into_db db data).errMsgs = []) := by
  refine ⟨insert_ok_iff db data, insert_fail_shape db data, ?_⟩
  intro h
  exact ⟨(insert_success_shape db data h).1, (insert_success_shape db data h).2.2.2.2.2⟩

/-- C9 witness: on a healthy store, inserting the empty dict fails with
the single KeyError-derived "Database error: delivery" message and leaves
the store unchanged. -/
theorem C9_insert_total_and_reports_w :
    ((insert_into_db emptyDb []).db = emptyDb ∧
      ∃ s, (insert_into_db emptyDb []).errMsgs = ["Database error: " ++ s]) ∧
    (insert_into_db emptyDb []).ok = false ∧
    (insert_into_db emptyDb []).errMsgs = ["Database error: " ++ "delivery"] :=
  ⟨(C9_insert_total_and_reports emptyDb []).2.1 rfl, rfl, rfl⟩

/-- C3 counterexample: on an unreachable store `get_delivery_history`
propagates the connection exception to the caller instead of returning an
empty sequence. -/
theorem C3_history_raises_cex :
    (get_delivery_history { emptyDb with reachable := false }).res =
      Except.error (PyError.dbError "connection failed") ∧
    ∀ rows : List Row,
      (get_delivery_history { emptyDb with reachable := false }).res ≠
        Except.ok rows := by
  refine ⟨rfl, ?_⟩
  intro rows h
  simp [get_delivery_history, emptyDb] at h

/-- C3 amended: `get_delivery_history` returns the empty sequence when the
store is reachable and empty, but a connection or read failure is not
downgraded: the exception propagates to the caller (the function has no
handler). -/
theorem C3_history_empty_or_raises (db : DBState) :
    (db.reachable = true → db.execFails = false → db.rows = [] →
      (get_delivery_history db).res = Except.ok []) ∧
    (db.reachable = false ∨ db.execFails = true →
      ∃ e, (get_delivery_history db).res = Except.error e) := by
  unfold get_delivery_history
  cases hr : db.reachable <;> cases he : db.execFails <;> simp [hr, he]
  intro h
  simp [h, sortByCreatedDesc]

/-- C3 witness: on the reachable empty store, history is `ok []`; on the
unreachable store, some exception is raised. -/
theorem C3_history_empty_or_raises_w :
    (get_delivery_history emptyDb).res = Except.ok [] ∧
    ∃ e, (get_delivery_history { emptyDb with reachable := false }).res =
      Except.error e :=
  ⟨(C3_history_empty_or_raises emptyDb).1 rfl rfl rfl,
   (C3_history_empty_or_raises { emptyDb with reachable := false }).2 (Or.inl rfl)⟩

/-- C4 counterexample: when the SQL execute raises inside `insert_into_db`
on an otherwise reachable store, the connection that was opened is never
closed before the call returns (the except branch skips `conn.close()`). -/
theorem C4_connection_leak_cex :
    (insert_into_db { emptyDb with execFails := true }
        [("delivery", Value.str "yes"), ("price_num", Value.num 5),
         ("description", Value.str ""), ("order_id", Value.str ""),
         ("delivery_date", Value.null), ("store", Value.str ""),
         ("tracking_number", Value.str ""), ("carrier", Value.str "")]).trace =
      [Event.openConn] ∧
    Event.closeConn ∉
      (insert_into_db { emptyDb with execFails := true }
        [("delivery", Value.str "yes"), ("price_num", Value.num 5),
         ("description", Value.str ""), ("order_id", Value.str ""),
         ("delivery_date", Value.null), ("store", Value.str ""),
         ("tracking_number", Value.str ""), ("carrier", Value.str "")]).trace := by
  refine ⟨rfl, ?_⟩
  show Event.closeConn ∉ [Event.openConn]
  decide

/-- C4 amended: each store operation opens its own connection, and that
connection is closed before the call returns on the paths where the
underlying SQL operation succeeds; on the paths where the SQL operation
raises, the call returns (or propagates) without closing the
connection. -/
theorem C4_connection_per_call (db : DBState) (data : Obj) :
    (db.reachable = true → db.execFails = false →
      ((firstMissingKey data = none →
          (insert_into_db db data).trace = [Event.openConn, Event.closeConn]) ∧
        (get_delivery_history db).trace = [Event.openConn, Event.closeConn] ∧
        (create_table_if_not_exists db).2 = [Event.openConn, Event.closeConn])) ∧
    (db.reachable = true → db.execFails = true →
      ((insert_into_db db data).trace = [Event.openConn] ∧
        Event.closeConn ∉ (insert_into_db db data).trace ∧
        (get_delivery_history db).trace = [Event.openConn] ∧
        Event.closeConn ∉ (get_delivery_history db).trace ∧
        (create_table_if_not_exists db).2 = [Event.openConn] ∧
        Event.closeConn ∉ (create_table_if_not_exists db).2)) := by
  unfold insert_into_db get_delivery_history create_table_if_not_exists
  cases hr : db.reachable <;> cases he : db.execFails <;>
    cases hm : firstMissingKey data <;> simp [hr, he, hm]

/-- C4 witness: on the healthy empty store the history read opens and then
closes its connection; on the store whose reads fail, the insert of a
fully-populated record opens a connection and returns without closing
it. -/
theorem C4_connection_per_call_w :
    (get_delivery_history emptyDb).trace = [Event.openConn, Event.closeConn] ∧
    (insert_into_db { emptyDb with execFails := true }
        [("delivery", Value.str "yes"), ("price_num", Value.num 5),
         ("description", Value.str ""), ("order_id", Value.str ""),
         ("delivery_date", Value.null), ("store", Value.str ""),
         ("tracking_number", Value.str ""), ("carrier", Value.str "")]).trace =
      [Event.openConn] :=
  ⟨((C4_connection_per_call emptyDb []).1 rfl rfl).2.1,
   ((C4_connection_per_call { emptyDb with execFails := true }
      [("delivery", Value.str "yes"), ("price_num", Value.num 5),
       ("description", Value.str ""), ("order_id", Value.str ""),
       ("delivery_date", Value.null), ("store", Value.str ""),
       ("tracking_number", Value.str ""), ("carrier", Value.str "")]).2 rfl rfl).1⟩

/-- A parsed object carrying just the two fields the display reads
unconditionally. -/
def twoFieldData : Obj :=
  [("delivery", Value.str "yes"), ("price_num", Value.num 3)]

/-- What `display_delivery_details` renders for `twoFieldData`. -/
def twoFieldOut : DisplayOut :=
  { statusConfirmed := true, priceShown := some 3
    order_id := Value.str "", description := Value.str ""
    store := Value.str "", delivery_date := Value.str ""
    carrier := Value.str "", tracking_number := Value.str ""
    trackingShown := false }

/-- An unreachable store (the `get_connection` call raises). -/
def downDb : DBState := { emptyDb with reachable := false }

/-- C5: when the display of the parsed record succeeds, the record is
presented to the user before the insert runs, so a store failure - which
`insert_into_db` reports and converts to False - never removes the record
from view: the displayed output is the same whatever the store does, and
an insert failure is reported as a database error message. -/
theorem C5_displayed_despite_insert_failure (db : DBState) (parsed : Obj)
    (v : DisplayOut) (h : display_delivery_details parsed = Except.ok v) :
    (processParsed db parsed).displayed = some v ∧
    (processParsed db parsed).insertAttempted = true ∧
    ((processParsed db parsed).insertOk = false →
      (processParsed db parsed).displayed = some v ∧
      ∃ s, (processParsed db parsed).dbErrors = ["Database error: " ++ s]) ∧
    ((processParsed db parsed).insertOk = true →
      (processParsed db parsed).successMsg = true) := by
  unfold processParsed
  rw [h]
  refine ⟨rfl, rfl, ?_, ?_⟩
  · intro hf
    exact ⟨rfl, (insert_fail_shape db parsed hf).2⟩
  · intro ht
    exact ht

/-- C5 witness: with the store unreachable, the two-field record is still
displayed, the insert fails, and a database error message is shown. -/
theorem C5_displayed_despite_insert_failure_w :
    (processParsed downDb twoFieldData).displayed = some twoFieldOut ∧
    (processParsed downDb twoFieldData).insertAttempted = true ∧
    ((processParsed downDb twoFieldData).displayed = some twoFieldOut ∧
      ∃ s, (processParsed downDb twoFieldData).dbErrors = ["Database error: " ++ s]) := by
  have t := C5_displayed_despite_insert_failure downDb twoFieldData twoFieldOut rfl
  exact ⟨t.1, t.2.1, t.2.2.1 rfl⟩

/-- C10: `display_delivery_details` reads "delivery" and "price_num"
unconditionally, raising a KeyError naming the missing one, while the six
other fields fall back to defaults; since display runs before insertion
in `main` and the KeyError is not caught there, a parsed response missing
"delivery" or "price_num" fails before any insert is attempted and
leaves the store untouched. -/
theorem C10_display_requires_keys (data : Obj) (db : DBState) :
    (getKey data "delivery" = none →
      display_delivery_details data = Except.error (PyError.keyError "delivery") ∧
      (processParsed db data).insertAttempted = false ∧
      (processParsed db data).db = db ∧
      (processParsed db data).raised = some (PyError.keyError "delivery")) ∧
    (∀ dv, getKey data "delivery" = some dv → getKey data "price_num" = none →
      display_delivery_details data = Except.error (PyError.keyError "price_num") ∧
      (processParsed db data).insertAttempted = false ∧
      (processParsed db data).db = db) ∧
    (∀ dv q, getKey data "delivery" = some dv →
      getKey data "price_num" = some (Value.num q) →
      ∃ out, display_delivery_details data = Except.ok out) := by
  refine ⟨?_, ?_, ?_⟩
  · intro h
    have hd : display_delivery_details data =
        Except.error (PyError.keyError "delivery") := by
      unfold display_delivery_details
      rw [h]
    refine ⟨hd, ?_, ?_, ?_⟩ <;> · unfold processParsed; rw [hd]
  · intro dv h hp
    have hd : display_delivery_details data =
        Except.error (PyError.keyError "price_num") := by
      unfold display_delivery_details
      rw [h, hp]
    refine ⟨hd, ?_, ?_⟩ <;> · unfold processParsed; rw [hd]
  · intro dv q h hp
    refine ⟨{ statusConfirmed := decide (dv = Value.str "yes")
              priceShown := if 0 < q then some q else none
              order_id := getD data "order_id" (Value.str "")
              description := getD data "description" (Value.str "")
              store := getD data "store" (Value.str "")
              delivery_date := format_delivery_date (getD data "delivery_date" (Value.str ""))
              carrier := getD data "carrier" (Value.str "")
              tracking_number := getD data "tracking_number" (Value.str "")
              trackingShown := truthy (getKey data "tracking_number")
                && truthy (getKey data "carrier") }, ?_⟩
    unfold display_delivery_details
    rw [h, hp]

/-- C10 witness: for the empty parsed object the display raises
KeyError("delivery"), nothing is inserted and the store is unchanged. -/
theorem C10_display_requires_keys_w :
    display_delivery_details [] = Except.error (PyError.keyError "delivery") ∧
    (processParsed emptyDb []).insertAttempted = false ∧
    (processParsed emptyDb []).db = emptyDb ∧
    (processParsed emptyDb []).raised = some (PyError.keyError "delivery") :=
  (C10_display_requires_keys [] emptyDb).1 rfl

/-- C6 counterexample: on the empty record list the statistics block of
`main` is skipped entirely (guarded by `if not df.empty`), so no
zero-valued summary is produced. -/
theorem C6_stats_empty_cex :
    statsBlock [] = none ∧ ∀ s : StatsOut, statsBlock [] ≠ some s := by
  refine ⟨rfl, ?_⟩
  intro s h
  exact Option.noConfusion h

/-- C6 amended: statistics are computed only for a nonempty record list;
there total = record count, confirmed = count of records whose delivery
equals "yes", total_spent = sum of the numeric prices, and the confirmed
percentage equals confirmed / total * 100, a well-defined value between 0
and 100 (total > 0, so no division by zero); the empty list produces no
statistics at all. -/
theorem C6_stats_nonempty (rows : List Row) (h : rows ≠ []) :
    ∃ s, statsBlock rows = some s ∧
      s.total = rows.length ∧
      s.confirmed =
        (rows.filter (fun r => decide (r.delivery = Value.str "yes"))).length ∧
      s.total_spent = (rows.map (fun r => Value.toQ r.price_num)).sum ∧
      s.confirmed_pct = (s.confirmed : ℚ) / (s.total : ℚ) * 100 ∧
      s.confirmed ≤ s.total ∧ 0 < s.total ∧
      0 ≤ s.confirmed_pct ∧ s.confirmed_pct ≤ 100 := by
  have hne : rows.isEmpty = false := by
    cases rows with
    | nil => exact absurd rfl h
    | cons a l => rfl
  have hpos : 0 < rows.length := List.length_pos.mpr h
  have hle :
      (rows.filter (fun r => decide (r.delivery = Value.str "yes"))).length ≤
        rows.length := List.length_filter_le _ _
  refine ⟨⟨rows.length,
      (rows.filter (fun r => decide (r.delivery = Value.str "yes"))).length,
      (((rows.filter (fun r => decide (r.delivery = Value.str "yes"))).length : ℚ) /
        (rows.length : ℚ)) * 100,
      (rows.map (fun r => Value.toQ r.price_num)).sum⟩,
    ?_, rfl, rfl, rfl, rfl, hle, hpos, ?_, ?_⟩
  · unfold statsBlock
    rw [hne]
    rfl
  · positivity
  · have h1 :
        (((rows.filter (fun r => decide (r.delivery = Value.str "yes"))).length : ℚ) /
          (rows.length : ℚ)) ≤ 1 := by
      rw [div_le_one (by exact_mod_cast hpos)]
      exact_mod_cast hle
    calc (((rows.filter (fun r => decide (r.delivery = Value.str "yes"))).length : ℚ) /
          (rows.length : ℚ)) * 100 ≤ 1 * 100 :=
            mul_le_mul_of_nonneg_right h1 (by norm_num)
      _ = 100 := by norm_num

/-- A sample stored row (a confirmed ten-unit delivery). -/
def sampleRow : Row :=
  { id := 1, delivery := Value.str "yes", price_num := Value.num 10
    description := Value.str "", order_id := Value.str ""
    delivery_date := Value.null, store := Value.str ""
    tracking_number := Value.str "", carrier := Value.str ""
    created_at := 0 }

/-- C6 witness: the singleton history produces statistics with the stated
shape. -/
theorem C6_stats_nonempty_w :
    ∃ s, statsBlock [sampleRow] = some s ∧
      s.total = [sampleRow].length ∧
      s.confirmed =
        ([sampleRow].filter (fun r => decide (r.delivery = Value.str "yes"))).length ∧
      s.total_spent = ([sampleRow].map (fun r => Value.toQ r.price_num)).sum ∧
      s.confirmed_pct = (s.confirmed : ℚ) / (s.total : ℚ) * 100 ∧
      s.confirmed ≤ s.total ∧ 0 < s.total ∧
      0 ≤ s.confirmed_pct ∧ s.confirmed_pct ≤ 100 :=
  C6_stats_nonempty [sampleRow] (List.cons_ne_nil _ _)

/-- C1 counterexample: for the well-formed JSON object with no fields
(the empty subset of the eight schema fields) no defaulted record is
produced: the display raises KeyError("delivery") instead of showing
delivery = "no", and the insert fails instead of storing defaults. -/
theorem C1_no_validation_cex :
    display_delivery_details [] = Except.error (PyError.keyError "delivery") ∧
    (insert_into_db emptyDb []).ok = false ∧
    (insert_into_db emptyDb []).db.rows = [] := by
  exact ⟨rfl, rfl, rfl⟩

/-- C1 amended: there is no validation step: only the six fields other
than delivery and price_num receive a default before display, and that
default is the empty string (also for delivery_date, not null); delivery
and price_num must be present for the record to be displayed at all, and
the insert reads all eight keys, failing - storing nothing - whenever any
of the six others is absent. -/
theorem C1_defaults_partial (dv : Value) (q : ℚ) (db : DBState) :
    (∃ out,
      display_delivery_details
        [("delivery", dv), ("price_num", Value.num q)] = Except.ok out ∧
      out.order_id = Value.str "" ∧ out.description = Value.str "" ∧
      out.store = Value.str "" ∧
      out.delivery_date = format_delivery_date (Value.str "") ∧
      out.carrier = Value.str "" ∧ out.tracking_number = Value.str "") ∧
    firstMissingKey [("delivery", dv), ("price_num", Value.num q)] =
      some "description" ∧
    (insert_into_db db [("delivery", dv), ("price_num", Value.num q)]).ok =
      false ∧
    (insert_into_db db [("delivery", dv), ("price_num", Value.num q)]).db =
      db := by
  refine ⟨⟨_, rfl, rfl, rfl, rfl, rfl, rfl, rfl⟩, rfl, ?_, ?_⟩
  · cases hok : (insert_into_db db [("delivery", dv), ("price_num", Value.num q)]).ok
    · rfl
    · have := (insert_ok_iff db [("delivery", dv), ("price_num", Value.num q)]).mp hok
      exact absurd this.2.2 (by intro hcontra; exact Option.noConfusion hcontra)
  · apply (insert_fail_shape db _ ?_).1
    cases hok : (insert_into_db db [("delivery", dv), ("price_num", Value.num q)]).ok
    · rfl
    · have := (insert_ok_iff db [("delivery", dv), ("price_num", Value.num q)]).mp hok
      exact absurd this.2.2 (by intro hcontra; exact Option.noConfusion hcontra)

/-- A fully-populated parsed object whose delivery field is the
upper-case "YES". -/
def dataYES : Obj :=
  [("delivery", Value.str "YES"), ("price_num", Value.num 5),
   ("description", Value.str "shoes"), ("order_id", Value.str "o1"),
   ("delivery_date", Value.str "2024-01-01"), ("store", Value.str "s"),
   ("tracking_number", Value.str "t1"), ("carrier", Value.str "c1")]

/-- C2 counterexample: for delivery "YES" nothing is normalized: the
display shows the record as NOT confirmed (the comparison with "yes" is
case-sensitive) and the insert stores the string "YES" verbatim. -/
theorem C2_no_normalization_cex :
    (∃ out, display_delivery_details dataYES = Except.ok out ∧
      out.statusConfirmed = false) ∧
    (insert_into_db emptyDb dataYES).ok = true ∧
    (insert_into_db emptyDb dataYES).db.rows.map Row.delivery =
      [Value.str "YES"] ∧
    Value.str "YES" ≠ Value.str "yes" := by
  refine ⟨⟨_, rfl, rfl⟩, rfl, rfl, by decide⟩

/-- C2 amended: the delivery field is compared by case-sensitive exact
equality with "yes": the display badge is confirmed exactly when the
value is the lower-case string "yes" (so "YES" counts as not confirmed
rather than being rejected or normalized), and a successful insert stores
the delivery value exactly as it arrived. -/
theorem C2_delivery_case_sensitive (data : Obj) (db : DBState)
    (dv : Value) (q : ℚ)
    (hd : getKey data "delivery" = some dv)
    (hp : getKey data "price_num" = some (Value.num q)) :
    (∃ out, display_delivery_details data = Except.ok out ∧
      (out.statusConfirmed = true ↔ dv = Value.str "yes")) ∧
    ((insert_into_db db data).ok = true →
      ∃ r, (insert_into_db db data).db.rows = db.rows ++ [r] ∧
        r.delivery = dv) := by
  constructor
  · refine ⟨{ statusConfirmed := decide (dv = Value.str "yes")
              priceShown := if 0 < q then some q else none
              order_id := getD data "order_id" (Value.str "")
              description := getD data "description" (Value.str "")
              store := getD data "store" (Value.str "")
              delivery_date := format_delivery_date (getD data "delivery_date" (Value.str ""))
              carrier := getD data "carrier" (Value.str "")
              tracking_number := getD data "tracking_number" (Value.str "")
              trackingShown := truthy (getKey data "tracking_number")
                && truthy (getKey data "carrier") }, ?_, ?_⟩
    · unfold display_delivery_details
      rw [hd, hp]
    · exact decide_eq_true_iff
  · intro hok
    refine ⟨mkRowFromData db data, (insert_success_shape db data hok).1, ?_⟩
    unfold mkRowFromData
    rw [hd]
    rfl

/-- C2 witness: applied to `dataYES` on the healthy empty store - the
badge is confirmed exactly when "YES" equals "yes" (it does not), and the
inserted row carries the delivery value "YES" unchanged. -/
theorem C2_delivery_case_sensitive_w :
    ((∃ out, display_delivery_details dataYES = Except.ok out ∧
      (out.statusConfirmed = true ↔ Value.str "YES" = Value.str "yes")) ∧
    ((insert_into_db emptyDb dataYES).ok = true →
      ∃ r, (insert_into_db emptyDb dataYES).db.rows = emptyDb.rows ++ [r] ∧
        r.delivery = Value.str "YES")) ∧
    (insert_into_db emptyDb dataYES).ok = true :=
  ⟨C2_delivery_case_sensitive dataYES emptyDb (Value.str "YES") 5 rfl rfl, rfl⟩

/-! ### Sorting lemmas for the history ORDER BY -/

theorem length_insertByCreated (r : Row) (l : List Row) :
    (insertByCreated r l).length = l.length + 1 := by
  induction l with
  | nil => rfl
  | cons x xs ih =>
    unfold insertByCreated
    split <;> simp [ih]

theorem perm_insertByCreated (r : Row) (l : List Row) :
    List.Perm (insertByCreated r l) (r :: l) := by
  induction l with
  | nil => exact List.Perm.refl _
  | cons x xs ih =>
    unfold insertByCreated
    split
    · exact (ih.cons x).trans (List.Perm.swap r x xs)
    · exact List.Perm.refl _

theorem pairwise_insertByCreated (r : Row) (l : List Row)
    (h : List.Pairwise (fun a b : Row => b.created_at ≤ a.created_at) l) :
    List.Pairwise (fun a b : Row => b.created_at ≤ a.created_at)
      (insertByCreated r l) := by
  induction l with
  | nil => simp [insertByCreated]
  | cons x xs ih =>
    rcases List.pairwise_cons.mp h with ⟨hx, hxs⟩
    unfold insertByCreated
    split
    · rename_i hle
      refine List.pairwise_cons.mpr ⟨?_, ih hxs⟩
      intro y hy
      rcases List.mem_cons.mp ((perm_insertByCreated r xs).mem_iff.mp hy) with
        rfl | hmem
      · exact hle
      · exact hx y hmem
    · rename_i hgt
      push_neg at hgt
      refine List.pairwise_cons.mpr ⟨?_, h⟩
      intro y hy
      rcases List.mem_cons.mp hy with rfl | hmem
      · exact le_of_lt hgt
      · exact le_trans (hx y hmem) (le_of_lt hgt)

theorem pairwise_sortByCreatedDesc (l : List Row) :
    List.Pairwise (fun a b : Row => b.created_at ≤ a.created_at)
      (sortByCreatedDesc l) := by
  induction l with
  | nil => simp [sortByCreatedDesc]
  | cons r rs ih => exact pairwise_insertByCreated r _ ih

theorem perm_sortByCreatedDesc (l : List Row) :
    List.Perm (sortByCreatedDesc l) l := by
  induction l with
  | nil => exact List.Perm.refl _
  | cons r rs ih => exact (perm_insertByCreated r _).trans (ih.cons r)

/-! ### Store invariant under sequential inserts -/

/-- A healthy store state whose rows all predate the IDENTITY counter and
the clock, with strictly increasing ids in insertion order. -/
def goodState (db : DBState) : Prop :=
  db.reachable = true ∧ db.execFails = false ∧
  (∀ r ∈ db.rows, r.id < db.nextId ∧ r.created_at < db.now) ∧
  List.Pairwise (fun a b : Row => a.id < b.id) db.rows

theorem goodState_emptyDb : goodState emptyDb := by
  refine ⟨rfl, rfl, ?_, ?_⟩ <;> simp [emptyDb]

theorem insert_preserves_good (db : DBState) (data : Obj)
    (hg : goodState db) (hk : allKeys data = true) :
    goodState (insert_into_db db data).db ∧
    (insert_into_db db data).ok = true ∧
    (insert_into_db db data).db.rows.length = db.rows.length + 1 ∧
    (insert_into_db db data).db.nextId = db.nextId + 1 := by
  obtain ⟨hr, he, hbound, hpw⟩ := hg
  have hm : firstMissingKey data = none := by
    unfold allKeys at hk
    cases h : firstMissingKey data
    · rfl
    · rw [h] at hk
      exact absurd hk (by simp)
  have hok : (insert_into_db db data).ok = true :=
    (insert_ok_iff db data).mpr ⟨hr, he, hm⟩
  obtain ⟨hrows, hnext, hnow, hre, hex, _⟩ := insert_success_shape db data hok
  refine ⟨⟨?_, ?_, ?_, ?_⟩, hok, ?_, hnext⟩
  · rw [hre]; exact hr
  · rw [hex]; exact he
  · intro r hrmem
    rw [hrows] at hrmem
    rw [hnext, hnow]
    rcases List.mem_append.mp hrmem with hold | hnew
    · exact ⟨Nat.lt_succ_of_lt (hbound r hold).1,
        Nat.lt_succ_of_lt (hbound r hold).2⟩
    · rcases List.mem_singleton.mp hnew with rfl
      exact ⟨Nat.lt_succ_self _, Nat.lt_succ_self _⟩
  · rw [hrows]
    refine (List.pairwise_append).mpr ⟨hpw, List.pairwise_singleton _ _, ?_⟩
    intro a ha b hb
    rcases List.mem_singleton.mp hb with rfl
    exact (hbound a ha).1
  · rw [hrows]
    simp

theorem insertSeq_good (datas : List Obj) :
    ∀ db : DBState, goodState db → (∀ d ∈ datas, allKeys d = true) →
    goodState (insertSeq db datas) ∧
    (insertSeq db datas).rows.length = db.rows.length + datas.length := by
  induction datas with
  | nil => intro db hg _; exact ⟨hg, rfl⟩
  | cons d ds ih =>
    intro db hg hk
    have hd := insert_preserves_good db d hg (hk d (List.mem_cons_self d ds))
    have hrest := ih (insert_into_db db d).db hd.1
      (fun x hx => hk x (List.mem_cons_of_mem d hx))
    refine ⟨hrest.1, ?_⟩
    show (insertSeq (insert_into_db db d).db ds).rows.length =
      db.rows.length + (d :: ds).length
    rw [hrest.2, hd.2.2.1]
    simp only [List.length_cons]
    omega

/-- C7: after N successful sequential inserts into the freshly created
empty store, the history query returns exactly N records, ordered by
non-increasing created_at (the ORDER BY created_at DESC of the query),
with pairwise distinct ids all below the IDENTITY counter, so the next
assigned id can never reuse one of them. -/
theorem C7_history_after_inserts (datas : List Obj)
    (hk : ∀ d ∈ datas, allKeys d = true) :
    ∃ hs, (get_delivery_history (insertSeq emptyDb datas)).res = Except.ok hs ∧
      hs.length = datas.length ∧
      List.Pairwise (fun a b : Row => b.created_at ≤ a.created_at) hs ∧
      (hs.map Row.id).Nodup ∧
      (∀ r ∈ hs, r.id < (insertSeq emptyDb datas).nextId) := by
  obtain ⟨⟨hr, he, hbound, hpw⟩, hlen⟩ :=
    insertSeq_good datas emptyDb goodState_emptyDb hk
  refine ⟨sortByCreatedDesc (insertSeq emptyDb datas).rows, ?_, ?_,
    pairwise_sortByCreatedDesc _, ?_, ?_⟩
  · unfold get_delivery_history
    rw [hr, he]
    rfl
  · rw [(perm_sortByCreatedDesc _).length_eq, hlen]
    simp [emptyDb]
  · have hnd : ((insertSeq emptyDb datas).rows.map Row.id).Nodup :=
      List.Pairwise.map Row.id (fun a b hab => Nat.ne_of_lt hab) hpw
    exact (List.Perm.map Row.id
      (perm_sortByCreatedDesc (insertSeq emptyDb datas).rows)).nodup_iff.mpr hnd
  · intro r hrmem
    exact (hbound r ((perm_sortByCreatedDesc _).subset hrmem)).1

/-- A second fully-populated parsed object. -/
def dataNO : Obj :=
  [("delivery", Value.str "no"), ("price_num", Value.num 0),
   ("description", Value.str "book"), ("order_id", Value.str "o2"),
   ("delivery_date", Value.null), ("store", Value.str "s2"),
   ("tracking_number", Value.str ""), ("carrier", Value.str "")]

/-- C7 witness: two successful inserts give a two-element history of the
stated shape. -/
theorem C7_history_after_inserts_w :
    ∃ hs, (get_delivery_history (insertSeq emptyDb [dataYES, dataNO])).res =
        Except.ok hs ∧
      hs.length = [dataYES, dataNO].length ∧
      List.Pairwise (fun a b : Row => b.created_at ≤ a.created_at) hs ∧
      (hs.map Row.id).Nodup ∧
      (∀ r ∈ hs, r.id < (insertSeq emptyDb [dataYES, dataNO]).nextId) :=
  C7_history_after_inserts [dataYES, dataNO] (by decide)

/-! ### First/last occurrence lemmas for the brace search -/

theorem firstIdx_get {c : Char} : ∀ {l : List Char} {i : Nat},
    firstIdx c l = some i → l[i]? = some c := by
  intro l
  induction l with
  | nil => intro i h; exact Option.noConfusion h
  | cons x xs ih =>
    intro i h
    unfold firstIdx at h
    by_cases hx : x = c
    · rw [if_pos hx] at h
      rcases Option.some.inj h with rfl
      simp [hx]
    · rw [if_neg hx] at h
      rcases Option.map_eq_some'.mp h with ⟨j, hj, rfl⟩
      rw [List.getElem?_cons_succ]
      exact ih hj

theorem firstIdx_min {c : Char} : ∀ {l : List Char} {i : Nat},
    firstIdx c l = some i → ∀ k, k < i → l[k]? ≠ some c := by
  intro l
  induction l with
  | nil => intro i h; exact Option.noConfusion h
  | cons x xs ih =>
    intro i h k hk
    unfold firstIdx at h
    by_cases hx : x = c
    · rw [if_pos hx] at h
      rcases Option.some.inj h with rfl
      exact absurd hk (Nat.not_lt_zero k)
    · rw [if_neg hx] at h
      rcases Option.map_eq_some'.mp h with ⟨j, hj, rfl⟩
      cases k with
      | zero =>
        rw [List.getElem?_cons_zero]
        intro hc
        exact hx (Option.some.inj hc)
      | succ k =>
        rw [List.getElem?_cons_succ]
        exact ih hj k (Nat.lt_of_succ_lt_succ hk)

theorem firstIdx_none {c : Char} : ∀ {l : List Char},
    firstIdx c l = none → ∀ k : Nat, l[k]? ≠ some c := by
  intro l
  induction l with
  | nil => intro _ k; simp
  | cons x xs ih =>
    intro h k
    unfold firstIdx at h
    by_cases hx : x = c
    · rw [if_pos hx] at h
      exact Option.noConfusion h
    · rw [if_neg hx] at h
      cases k with
      | zero =>
        rw [List.getElem?_cons_zero]
        intro hc
        exact hx (Option.some.inj hc)
      | succ k =>
        rw [List.getElem?_cons_succ]
        exact ih (Option.map_eq_none'.mp h) k

theorem lastIdx_bound {c : Char} : ∀ {l : List Char} {j : Nat},
    lastIdx c l = some j → j < l.length := by
  intro l
  induction l with
  | nil => intro j h; exact Option.noConfusion h
  | cons x xs ih =>
    intro j h
    unfold lastIdx at h
    cases hx : lastIdx c xs with
    | some j0 =>
      rw [hx] at h
      rcases Option.some.inj h with rfl
      exact Nat.succ_lt_succ (ih hx)
    | none =>
      rw [hx] at h
      by_cases hc : x = c
      · rw [if_pos hc] at h
        rcases Option.some.inj h with rfl
        exact Nat.succ_pos _
      · rw [if_neg hc] at h
        exact Option.noConfusion h

theorem lastIdx_get {c : Char} : ∀ {l : List Char} {j : Nat},
    lastIdx c l = some j → l[j]? = some c := by
  intro l
  induction l with
  | nil => intro j h; exact Option.noConfusion h
  | cons x xs ih =>
    intro j h
    unfold lastIdx at h
    cases hx : lastIdx c xs with
    | some j0 =>
      rw [hx] at h
      rcases Option.some.inj h with rfl
      rw [List.getElem?_cons_succ]
      exact ih hx
    | none =>
      rw [hx] at h
      by_cases hc : x = c
      · rw [if_pos hc] at h
        rcases Option.some.inj h with rfl
        simp [hc]
      · rw [if_neg hc] at h
        exact Option.noConfusion h

theorem lastIdx_none {c : Char} : ∀ {l : List Char},
    lastIdx c l = none → ∀ k : Nat, l[k]? ≠ some c := by
  intro l
  induction l with
  | nil => intro _ k; simp
  | cons x xs ih =>
    intro h k
    unfold lastIdx at h
    cases hx : lastIdx c xs with
    | some j0 =>
      rw [hx] at h
      exact Option.noConfusion h
    | none =>
      rw [hx] at h
      by_cases hc : x = c
      · rw [if_pos hc] at h
        exact Option.noConfusion h
      · cases k with
        | zero =>
          rw [List.getElem?_cons_zero]
          intro hcon
          exact hc (Option.some.inj hcon)
        | succ k =>
          rw [List.getElem?_cons_succ]
          exact ih hx k

theorem lastIdx_max {c : Char} : ∀ {l : List Char} {j : Nat},
    lastIdx c l = some j → ∀ k, j < k → l[k]? ≠ some c := by
  intro l
  induction l with
  | nil => intro j h; exact Option.noConfusion h
  | cons x xs ih =>
    intro j h k hk
    unfold lastIdx at h
    cases hx : lastIdx c xs with
    | some j0 =>
      rw [hx] at h
      rcases Option.some.inj h with rfl
      cases k with
      | zero => exact absurd hk (Nat.not_lt_zero _)
      | succ k =>
        rw [List.getElem?_cons_succ]
        exact ih hx k (Nat.lt_of_succ_lt_succ hk)
    | none =>
      rw [hx] at h
      by_cases hc : x = c
      · rw [if_pos hc] at h
        rcases Option.some.inj h with rfl
        cases k with
        | zero => exact absurd hk (Nat.lt_irrefl 0)
        | succ k =>
          rw [List.getElem?_cons_succ]
          exact lastIdx_none hx k
      · rw [if_neg hc] at h
        exact Option.noConfusion h

/-- C8: `extract_valid_json` (modelled from spec §4.2) is a total
function; when the fence-stripped trimmed text contains an opening brace
strictly before a closing brace, the result is exactly the contiguous
span from the first opening brace to the last closing brace of that text
(it begins with the opening brace, ends with the closing one, and the
text decomposes around it); otherwise the result is the trimmed text
unchanged, and no such brace span exists. -/
theorem C8_extract_valid_json_spec (s : List Char) :
    (∃ i j, firstIdx '{' (cleaned s) = some i ∧
      lastIdx '}' (cleaned s) = some j ∧ i < j ∧
      extract_valid_json s = ((cleaned s).drop i).take (j - i + 1) ∧
      (extract_valid_json s)[0]? = some '{' ∧
      (extract_valid_json s).getLast? = some '}' ∧
      cleaned s = (cleaned s).take i ++
        (extract_valid_json s ++ (cleaned s).drop (j + 1)) ∧
      (cleaned s)[i]? = some '{' ∧
      (∀ k, k < i → (cleaned s)[k]? ≠ some '{') ∧
      (cleaned s)[j]? = some '}' ∧
      (∀ k, j < k → (cleaned s)[k]? ≠ some '}')) ∨
    (extract_valid_json s = trimChars s ∧
      ∀ i j : Nat, i < j → ¬((cleaned s)[i]? = some '{' ∧
        (cleaned s)[j]? = some '}')) := by
  cases hf : firstIdx '{' (cleaned s) with
  | none =>
    right
    constructor
    · unfold extract_valid_json
      rw [hf]
    · intro i j _ hc
      exact firstIdx_none hf i hc.1
  | some i0 =>
    cases hl : lastIdx '}' (cleaned s) with
    | none =>
      right
      constructor
      · unfold extract_valid_json
        rw [hf, hl]
      · intro i j _ hc
        exact lastIdx_none hl j hc.2
    | some j0 =>
      by_cases hij : i0 < j0
      · left
        have hextract : extract_valid_json s =
            ((cleaned s).drop i0).take (j0 - i0 + 1) := by
          unfold extract_valid_json
          rw [hf, hl]
          exact if_pos hij
        have hjb : j0 < (cleaned s).length := lastIdx_bound hl
        refine ⟨i0, j0, rfl, rfl, hij, hextract, ?_, ?_, ?_,
          firstIdx_get hf, firstIdx_min hf, lastIdx_get hl, lastIdx_max hl⟩
        · rw [hextract, List.getElem?_take_of_lt (by omega),
            List.getElem?_drop]
          have h0 : i0 + 0 = i0 := rfl
          rw [h0]
          exact firstIdx_get hf
        · have hlen : (((cleaned s).drop i0).take (j0 - i0 + 1)).length =
              j0 - i0 + 1 := by
            rw [List.length_take, List.length_drop]
            omega
          rw [hextract, List.getLast?_eq_getElem?, hlen, Nat.add_sub_cancel,
            List.getElem?_take_of_lt (by omega), List.getElem?_drop]
          have hsum : i0 + (j0 - i0) = j0 := by omega
          rw [hsum]
          exact lastIdx_get hl
        · rw [hextract]
          calc cleaned s
              = (cleaned s).take i0 ++ (cleaned s).drop i0 :=
                (List.take_append_drop i0 (cleaned s)).symm
            _ = (cleaned s).take i0 ++
                (((cleaned s).drop i0).take (j0 - i0 + 1) ++
                  ((cleaned s).drop i0).drop (j0 - i0 + 1)) := by
                rw [List.take_append_drop (j0 - i0 + 1) ((cleaned s).drop i0)]
            _ = (cleaned s).take i0 ++
                (((cleaned s).drop i0).take (j0 - i0 + 1) ++
                  (cleaned s).drop (j0 + 1)) := by
                rw [List.drop_drop]
                have hsum : i0 + (j0 - i0 + 1) = j0 + 1 := by omega
                rw [hsum]
      · right
        constructor
        · unfold extract_valid_json
          rw [hf, hl]
          exact if_neg hij
        · intro i j hij2 hc
          have h1 : i0 ≤ i := by
            by_contra hcon
            push_neg at hcon
            exact firstIdx_min hf i hcon hc.1
          have h2 : j ≤ j0 := by
            by_contra hcon
            push_neg at hcon
            exact lastIdx_max hl j hcon hc.2
          exact hij (by omega)

/-- The §8 example completion: prose, a fenced json block, and the JSON
object payload. -/
def exInput : List Char :=
  String.toList "Here is the result:" ++ ['\n'] ++ fenceJson ++ ['\n', '{'] ++
  String.toList "\x22delivery\x22:\x22yes\x22,\x22price_num\x22:12.5" ++
  ['}', '\n'] ++ fence

/-- C8 witness: the spec characterization instantiated at the §8 example,
where the extractor returns exactly the brace-delimited JSON object. -/
theorem C8_extract_valid_json_spec_w :
    extract_valid_json exInput =
      '{' :: (String.toList
        "\x22delivery\x22:\x22yes\x22,\x22price_num\x22:12.5" ++ ['}']) ∧
    ((∃ i j, firstIdx '{' (cleaned exInput) = some i ∧
      lastIdx '}' (cleaned exInput) = some j ∧ i < j ∧
      extract_valid_json exInput =
        ((cleaned exInput).drop i).take (j - i + 1) ∧
      (extract_valid_json exInput)[0]? = some '{' ∧
      (extract_valid_json exInput).getLast? = some '}' ∧
      cleaned exInput = (cleaned exInput).take i ++
        (extract_valid_json exInput ++ (cleaned exInput).drop (j + 1)) ∧
      (cleaned exInput)[i]? = some '{' ∧
      (∀ k, k < i → (cleaned exInput)[k]? ≠ some '{') ∧
      (cleaned exInput)[j]? = some '}' ∧
      (∀ k, j < k → (cleaned exInput)[k]? ≠ some '}')) ∨
    (extract_valid_json exInput = trimChars exInput ∧
      ∀ i j : Nat, i < j → ¬((cleaned exInput)[i]? = some '{' ∧
        (cleaned exInput)[j]? = some '}'))) :=
  ⟨by decide, C8_extract_valid_json_spec exInput⟩

end DeliveryApp
